import Mathlib

/-!
Shallow embedding of the protocol/transport engine of
`node-red-contrib-sunspec-scan`, together with proofs about it.

The embedded functions are translated from:
  * `utils.js` (`findModelAddress`, `getRegisterSize`, `isNotImplemented`),
  * `connection-manager.js` (`ConnectionManager.request`, `_isFatalError`,
    `invalidate`),
  * `sunspec-scan.js` / `src/sunspec-scan.ts` (`fetchPointValue`,
    `readSinglePoint`, the auto-read retry logic in `executeRead`),
  * `discovery.js` (`parseIpRange`, `getSubnetRange`).

Numbers are modelled as `Nat`/`Int` with explicit `% 2 ^ w` where the
JavaScript source relies on 32-bit coercions, and decoded point values are
modelled in `ℚ` (the JS code only multiplies by powers of ten and rounds to
two decimals on the inputs considered here).
-/

namespace SunSpecScan

/-- JS `String.prototype.includes(pat)` on character lists:
`true` iff `pat` occurs as a contiguous substring of `s`. -/
def hasInfixList (pat : List Char) : List Char → Bool
  | [] => pat.isPrefixOf ([] : List Char)
  | c :: rest => pat.isPrefixOf (c :: rest) || hasInfixList pat rest

/-- JS `s.includes(pat)` on strings. -/
def strIncludes (s pat : String) : Bool :=
  hasInfixList pat.toList s.toList

/-- JS `s.includes(c)` / membership of a single character. -/
def jsContains (s : String) (c : Char) : Bool :=
  s.toList.contains c

/-- JS `s.split(sep)` for a one-character separator, on character lists:
`splitOnCharList ',' "a,b".toList = [['a'], ['b']]`; the empty string
splits to `[[]]`, as in JS. -/
def splitOnCharList (sep : Char) : List Char → List (List Char)
  | [] => [[]]
  | c :: rest =>
    match splitOnCharList sep rest with
    | [] => if c = sep then [[], []] else [[c]]
    | head :: tail =>
      if c = sep then [] :: head :: tail else (c :: head) :: tail

/-- JS `s.split(sep)` for a one-character separator. -/
def jsSplit (s : String) (sep : Char) : List String :=
  (splitOnCharList sep s.toList).map String.mk

/-- JS whitespace for `trim`. -/
def isJsWS (c : Char) : Bool :=
  c = ' ' || c = '\t' || c = '\n' || c = '\r'

/-- JS `s.trim()`. -/
def jsTrim (s : String) : String :=
  String.mk (((s.toList.dropWhile isJsWS).reverse.dropWhile isJsWS).reverse)

/-- JS `parseInt(s)` restricted to base 10: the leading digit run, or
`none` for `NaN`. -/
def jsParseInt (s : String) : Option Nat :=
  let ds := s.toList.takeWhile (fun c => '0' ≤ c && c ≤ '9')
  if ds.isEmpty then none
  else some (ds.foldl (fun a c => a * 10 + (c.toNat - 48)) 0)

/-! ## Constants (`constants.js`) -/

def SUNSPEC_ID_HIGH : Nat := 0x5375
def SUNSPEC_ID_LOW : Nat := 0x6e53
def BASE_ADDR_40000 : Nat := 40000
def BASE_ADDR_40002 : Nat := 40002
def MODEL_END_MARKER : Nat := 0xFFFF
def INT16_NOT_IMPL : Int := -32768
def UINT16_NOT_IMPL : Nat := 65535
def INT32_NOT_IMPL : Int := -2147483648
def UINT32_NOT_IMPL : Nat := 4294967295
def REG_SIZE_16 : Nat := 1
def REG_SIZE_32 : Nat := 2
def REG_SIZE_64 : Nat := 4
def REG_SIZE_STRING : Nat := 1
def MAX_RETRY_DELAY : Nat := 30000
def BASE_RETRY_DELAY : Nat := 1000

/-! ## Device memory and register reads

A device is modelled as a map from register address to the 16-bit register
word stored there (`% 2 ^ 16` keeps every read inside the register width,
as the Modbus transport does).  `readHoldingRegisters(addr, n).buffer` is a
big-endian byte buffer of the `n` registers starting at `addr`; the
`readXxxBE(0)` calls of the source decode its first bytes as follows. -/

/-- The device register file: address ↦ 16-bit word. -/
def DevMem : Type := Nat → Nat

/-- `buffer.readUInt16BE(0)` of a 1-register read at `a`. -/
def readU16 (regs : DevMem) (a : Nat) : Nat := regs a % 2 ^ 16

/-- `buffer.readInt16BE(0)` of a 1-register read at `a`. -/
def readI16 (regs : DevMem) (a : Nat) : Int :=
  let w := readU16 regs a
  if w < 2 ^ 15 then (w : Int) else (w : Int) - 2 ^ 16

/-- `buffer.readUInt32BE(0)` of a 2-register read at `a` (big-endian). -/
def readU32 (regs : DevMem) (a : Nat) : Nat :=
  readU16 regs a * 2 ^ 16 + readU16 regs (a + 1)

/-- `buffer.readInt32BE(0)` of a 2-register read at `a` (big-endian). -/
def readI32 (regs : DevMem) (a : Nat) : Int :=
  let w := readU32 regs a
  if w < 2 ^ 31 then (w : Int) else (w : Int) - 2 ^ 32

/-! ## Model chain walker (`utils.js`, `findModelAddress`)

The source walks the chain with `while (true)`; the embedding is
step-indexed: `fuel` bounds how many loop iterations we inspect, and a
result of `none` means the loop has not returned within that many
iterations.  A loop that returns `none` for *every* fuel never returns. -/

/-- One register-pair header read: `(id, length)` at the given address. -/
def readHeader (regs : DevMem) (a : Nat) : Nat × Nat :=
  (readU16 regs a, readU16 regs (a + 1))

/-- The `while (true)` loop of `findModelAddress` (utils.js:37-55),
step-indexed by `fuel`.  Returns `some (-1)` when the end marker is seen,
`some addr` when the target model is found at `addr`, and `none` when the
loop is still running after `fuel` iterations. -/
def findModelAddressWalk (regs : DevMem) (modelId : Nat) : Nat → Nat → Option Int
  | 0, _ => none
  | fuel + 1, addr =>
    let id := (readHeader regs addr).1
    let length := (readHeader regs addr).2
    if id = MODEL_END_MARKER then some (-1)
    else if id = modelId then some (addr : Int)
    else findModelAddressWalk regs modelId fuel (addr + 2 + length)

/-- `findModelAddress(client, modelId, baseAddr)` (utils.js:22-56).  When
`baseAddr` is `null` the source auto-detects: it defaults to
`BASE_ADDR_40002` and, if the marker words at 40000 match, ... also uses
`BASE_ADDR_40002` (both branches pick the same base).  The walk itself is
the step-indexed loop above. -/
def findModelAddress (regs : DevMem) (modelId : Nat) (baseAddr : Option Nat)
    (fuel : Nat) : Option Int :=
  let base :=
    match baseAddr with
    | some b => b
    | none =>
      if (readHeader regs BASE_ADDR_40000).1 = SUNSPEC_ID_HIGH ∧
          (readHeader regs BASE_ADDR_40000).2 = SUNSPEC_ID_LOW then
        BASE_ADDR_40002
      else BASE_ADDR_40002
  findModelAddressWalk regs modelId fuel base

/-- `getRegisterSize(type)` (utils.js:102-111).  `none` stands for a
falsy `type` argument. -/
def getRegisterSize (type? : Option String) : Nat :=
  match type? with
  | none => REG_SIZE_16
  | some t =>
    if strIncludes t "32" then REG_SIZE_32
    else if strIncludes t "64" then REG_SIZE_64
    else if t = "string" then REG_SIZE_STRING
    else if t = "sunssf" then REG_SIZE_16
    else REG_SIZE_16

/-! ## Point decoder (`sunspec-scan.js`, `fetchPointValue`) -/

/-- One entry of a model's `group.points` schema.  `size?` is the optional
schema-declared register size (`p.size`), `sf?` the optional name of the
scale-factor point (`p.sf`). -/
structure Point where
  name : String
  type : String
  size? : Option Nat
  sf? : Option String
deriving DecidableEq, Repr

/-- A decoded point value: a number, a string, or JS `null`. -/
inductive SSValue where
  | num (v : ℚ)
  | str (s : String)
  | null
deriving DecidableEq, Repr

/-- Truthiness of `p.size` (JS: `undefined` and `0` are falsy). -/
def sizeDeclared (p : Point) : Bool :=
  match p.size? with
  | some n => n != 0
  | none => false

/-- `let size = p.size || 1; if (!p.size) { ... }` (sunspec-scan.js:591-596):
the inferred register size of a point. -/
def sizeOfPoint (p : Point) : Nat :=
  if sizeDeclared p then p.size?.getD 1
  else
    let s := 1
    let s := if strIncludes p.type "32" then 2 else s
    let s := if strIncludes p.type "64" then 4 else s
    let s := if p.type = "sunssf" then 1 else s
    s

/-- The offset loop of `fetchPointValue` (sunspec-scan.js:574-589): sum of
the sizes of the points preceding the first point named `n` (the loop
`break`s at the match; if no point matches it sums every size). -/
def offsetToPoint : List Point → String → Nat
  | [], _ => 0
  | p :: rest, n => if p.name = n then 0 else sizeOfPoint p + offsetToPoint rest n

/-- Big-endian byte list of the `n` registers starting at `a`
(`readHoldingRegisters(a, n).buffer`). -/
def regBytes (regs : DevMem) (a : Nat) : Nat → List Nat
  | 0 => []
  | n + 1 => (readU16 regs a / 256) :: (readU16 regs a % 256) :: regBytes regs (a + 1) n

/-- The character whitelist of the string decode
(`/[^a-zA-Z0-9\-\.\_ ]/g`, sunspec-scan.js:629). -/
def allowedChar (c : Char) : Bool :=
  (Char.toNat 'a' ≤ c.toNat && c.toNat ≤ Char.toNat 'z') ||
  (Char.toNat 'A' ≤ c.toNat && c.toNat ≤ Char.toNat 'Z') ||
  (Char.toNat '0' ≤ c.toNat && c.toNat ≤ Char.toNat '9') ||
  c = '-' || c = '.' || c = '_' || c = ' '

/-- `buf.toString()` filtered to the whitelist and trimmed
(sunspec-scan.js:624-630). -/
def decodeStringRegs (regs : DevMem) (a size : Nat) : String :=
  jsTrim (String.mk (((regBytes regs a size).map Char.ofNat).filter allowedChar))

/-- `fetchPointValue(client, models, modelId, modelAddr, pointName, node)`
(sunspec-scan.js:565-682), for a model whose schema points are `points`:
find the point definition (a missing name returns `null`), compute its
offset, read and decode its registers, map the type's not-implemented
sentinel to `null`, apply the referenced scale factor unless that factor is
itself the sentinel (or the point is named `W`/`VA`), and optionally round
to two decimals. -/
def fetchPointValue (points : List Point) (pointName : String) (regs : DevMem)
    (modelAddr : Nat) (roundDecimals : Bool) : SSValue :=
  match points.find? (fun p => p.name == pointName) with
  | none => SSValue.null
  | some pointDef =>
    let offset := offsetToPoint points pointName
    let size := sizeOfPoint pointDef
    let a := modelAddr + offset
    let decoded : SSValue :=
      if pointDef.type = "int16" then
        let raw := readI16 regs a
        if raw = INT16_NOT_IMPL then SSValue.null else SSValue.num (raw : ℚ)
      else if pointDef.type = "uint16" ∨ pointDef.type = "enum16" then
        let raw := readU16 regs a
        if raw = UINT16_NOT_IMPL then SSValue.null else SSValue.num (raw : ℚ)
      else if pointDef.type = "int32" then
        let raw := readI32 regs a
        if raw = INT32_NOT_IMPL then SSValue.null else SSValue.num (raw : ℚ)
      else if pointDef.type = "uint32" then
        let raw := readU32 regs a
        if raw = UINT32_NOT_IMPL then SSValue.null else SSValue.num (raw : ℚ)
      else if pointDef.type = "sunssf" then
        let raw := readI16 regs a
        if raw = INT16_NOT_IMPL then SSValue.null else SSValue.num (raw : ℚ)
      else if pointDef.type = "string" then
        SSValue.str (decodeStringRegs regs a size)
      else
        SSValue.num (readU16 regs a : ℚ)
    match decoded with
    | SSValue.str s => SSValue.str s
    | SSValue.null => SSValue.null
    | SSValue.num v =>
      let scaled :=
        match pointDef.sf? with
        | none => v
        | some sfName =>
          if pointDef.name = "W" ∨ pointDef.name = "VA" then v
          else if points.any (fun p => p.name == sfName) then
            let sf := readI16 regs (modelAddr + offsetToPoint points sfName)
            if sf ≠ INT16_NOT_IMPL then v * (10 : ℚ) ^ sf else v
          else v
      if roundDecimals then (round (scaled * 100) : ℚ) / 100 |> SSValue.num
      else SSValue.num scaled

/-! ## Connection pool (`connection-manager.js`)

The pool is the `Map<"ip:port", {client, lastActive, queue}>` of
`ConnectionManager`, modelled as an association list keyed by the
`"ip:port"` string.  A client handle carries its id and its `isOpen`
flag.  One dequeued execution of a submitted action (the body of the
`entry.queue.then(...)` continuation, connection-manager.js:52-90) is the
function `requestExec` below; its nondeterministic environment (whether
`connectTCP` succeeds, which handle it yields, how the action settles) is
a `ReqEnv` argument. -/

structure PoolClient where
  handle : Nat
  isOpen : Bool
deriving DecidableEq, Repr

structure PoolEntry where
  client : Option PoolClient
deriving DecidableEq, Repr

def PoolMap : Type := List (String × PoolEntry)

/-- `this.pool.get(key)`. -/
def poolGet (m : PoolMap) (k : String) : Option PoolEntry :=
  (List.find? (fun e => e.1 == k) m).map (fun e => e.2)

/-- `this.pool.set(key, v)`. -/
def poolSet : PoolMap → String → PoolEntry → PoolMap
  | [], k, v => [(k, v)]
  | (k', v') :: rest, k, v =>
    if k' = k then (k, v) :: rest else (k', v') :: poolSet rest k v

/-- `this.pool.delete(key)`. -/
def poolDelete (m : PoolMap) (k : String) : PoolMap :=
  List.filter (fun e => !(e.1 == k)) m

/-- The fixed fatal indicator list of `_isFatalError`
(connection-manager.js:120). -/
def fatalErrors : List String :=
  ["ECONNRESET", "EPIPE", "ETIMEDOUT", "Port Not Open", "Transaction timed out"]

/-- `_isFatalError(error)` (connection-manager.js:119-122): does the error
message contain one of the fatal indicators? -/
def isFatalError (msg : String) : Bool :=
  fatalErrors.any (fun e => strIncludes msg e)

/-- Observable transport-level events of one execution. -/
inductive TEvent where
  | connect (h : Nat)
  | close (h : Nat)
deriving DecidableEq, Repr

/-- `invalidate(ip, port)` (connection-manager.js:130-139): close any live
handle of the entry, then forget the entry.  Returns the new pool and the
emitted close events. -/
def invalidate (m : PoolMap) (k : String) : PoolMap × List TEvent :=
  match poolGet m k with
  | none => (m, [])
  | some e =>
    (poolDelete m k,
     match e.client with
     | some c => [TEvent.close c.handle]
     | none => [])

/-- Environment of one queued execution: whether `_connect` succeeds, the
handle it would return, and how the caller's action settles. -/
structure ReqEnv where
  connectOk : Bool
  freshHandle : Nat
  actionResult : Except String Unit

structure ReqResult where
  pool : PoolMap
  events : List TEvent
  result : Except String Unit

/-- One dequeued execution of `request(ip, port, unitId, action, timeout)`
(connection-manager.js:34-97): ensure the pool entry exists (lines 39-45);
if no live open client, `_connect` — on failure `invalidate` and rethrow
(lines 57-64); run the action; on a thrown error, `invalidate` and null the
client when `_isFatalError` matches, then rethrow (lines 82-89). -/
def requestExec (pool0 : PoolMap) (k : String) (env : ReqEnv) : ReqResult :=
  let pool1 := if (poolGet pool0 k).isSome then pool0 else poolSet pool0 k ⟨none⟩
  let entry := (poolGet pool1 k).getD ⟨none⟩
  let needConnect :=
    match entry.client with
    | none => true
    | some c => !c.isOpen
  if needConnect then
    if env.connectOk then
      let c : PoolClient := ⟨env.freshHandle, true⟩
      let pool2 := poolSet pool1 k ⟨some c⟩
      runAction pool2 k c [TEvent.connect env.freshHandle] env.actionResult
    else
      let (pool2, evs) := invalidate pool1 k
      ⟨pool2, evs, Except.error "connect failed"⟩
  else
    runAction pool1 k (entry.client.getD ⟨0, true⟩) [] env.actionResult
where
  /-- Steps B-C of the queued continuation: `setID` (infallible when
  connected), run the action, classify a thrown error. -/
  runAction (pool : PoolMap) (k : String) (_c : PoolClient)
      (evs : List TEvent) : Except String Unit → ReqResult
    | Except.ok _ => ⟨pool, evs, Except.ok ()⟩
    | Except.error msg =>
      if isFatalError msg then
        let (pool', evs') := invalidate pool k
        ⟨pool', evs ++ evs', Except.error msg⟩
      else
        ⟨pool, evs, Except.error msg⟩

/-! ## Per-key FIFO serialization (`ConnectionManager.request`)

`request` chains every new action onto the key's current queue tail
(`entry.queue.then(...)`, connection-manager.js:50-94), and
`readSinglePoint` (src/sunspec-scan.ts:959-1007) wraps its whole session
interaction — model-chain reads and point reads — inside one such action,
so one `readSinglePoint` call is one submission.

The program is a list of submissions `CAction = (key, number of transport
steps)`, in submission order.  Submission `i` owns events `(i, 0)` (its
continuation starts: client acquire and `setID`), `(i, 1) … (i, steps)`
(its transport interactions) and `(i, steps + 1)` (its promise settles).
`dep` is the ordering imposed by the promise graph: events inside one
action are sequenced by its `await`s, and the first event of a submission
is a continuation of the settlement of the *previous submission with the
same key* (that is exactly the `entry.queue.then` chaining; the
`resultPromise.catch(() => {})` tail keeps the chain alive when an action
rejects).  A `ValidTrace` is any interleaving the single-threaded
scheduler can produce: all events, each once, every dependency respected.
Different keys are deliberately unrelated in `dep`: the model allows their
events to interleave freely. -/

abbrev CAction := String × Nat

abbrev CEvent := Nat × Nat

def keyOf (A : List CAction) (i : Nat) : String := (A.getD i ("", 0)).1

def stepsOf (A : List CAction) (i : Nat) : Nat := (A.getD i ("", 0)).2

/-- Number of events of submission `i` (start, transport steps, settle). -/
def numEvents (A : List CAction) (i : Nat) : Nat := stepsOf A i + 2

/-- The dependency order generated by the promise graph of
`request`: sequential `await`s inside one action, and per-key queue
chaining between a submission and its immediate same-key predecessor. -/
def dep (A : List CAction) (e e' : CEvent) : Prop :=
  (e.1 = e'.1 ∧ e.1 < A.length ∧ e.2 < e'.2 ∧ e'.2 < numEvents A e.1)
  ∨ (e.1 < e'.1 ∧ e'.1 < A.length ∧ keyOf A e.1 = keyOf A e'.1
      ∧ (∀ m, m < e'.1 → e.1 < m → keyOf A m ≠ keyOf A e'.1)
      ∧ e.2 = numEvents A e.1 - 1 ∧ e'.2 = 0)

instance (A : List CAction) (e e' : CEvent) : Decidable (dep A e e') := by
  unfold dep; infer_instance

/-- A trace the cooperative scheduler can produce: exactly the events of
the submissions, without duplicates, in any order consistent with `dep`. -/
def ValidTrace (A : List CAction) (tr : List CEvent) : Prop :=
  tr.Nodup
  ∧ (∀ e ∈ tr, e.1 < A.length ∧ e.2 < numEvents A e.1)
  ∧ (∀ i, i < A.length → ∀ s, s < numEvents A i → (i, s) ∈ tr)
  ∧ (∀ e ∈ tr, ∀ e' ∈ tr, dep A e e' → tr.indexOf e < tr.indexOf e')

instance (A : List CAction) (tr : List CEvent) : Decidable (ValidTrace A tr) := by
  unfold ValidTrace
  infer_instance

/-! ## Auto-read retry scheduler (`sunspec-scan.js`, `executeRead`)

`executeRead` (sunspec-scan.js:449-486) runs
`triggerScan({}).catch(onFailure).then(onSettled)`.  Because the `.then`
is chained *after* the `.catch`, `onSettled` runs after every settlement,
failures included: on a failure `onFailure` first increments
`consecutiveErrors` and computes
`min(retryDelay * 2 ** (consecutiveErrors - 1), 30000)` (lines 450-459),
then `onSettled` (lines 473-485) resets `consecutiveErrors` to `0` and
resumes the interval.  One settled cycle is `executeReadCycle`; it returns
the post-cycle state and the scheduled backoff delay, if any. -/

structure ConnState where
  consecutiveErrors : Nat
  retryDelay : Nat
deriving DecidableEq, Repr

/-- Initial `node.connectionState` (sunspec-scan.js:327-332). -/
def initialConnState : ConnState := ⟨0, BASE_RETRY_DELAY⟩

/-- One settled auto-read cycle of `executeRead`. -/
def executeReadCycle (st : ConnState) (failed : Bool) : ConnState × Option Nat :=
  if failed then
    let n := st.consecutiveErrors + 1
    let delay := min (st.retryDelay * 2 ^ (n - 1)) MAX_RETRY_DELAY
    ({ st with consecutiveErrors := 0 }, some delay)
  else
    ({ st with consecutiveErrors := 0 }, none)

/-- The backoff delays scheduled along a sequence of cycle outcomes
(`true` = the cycle's `triggerScan` rejected). -/
def executeReadDelays (st : ConnState) : List Bool → List Nat
  | [] => []
  | o :: rest =>
    let r := executeReadCycle st o
    (match r.2 with | some d => [d] | none => []) ++ executeReadDelays r.1 rest

/-- `min(baseDelay * 2 ** (n - 1), capDelay)`: the delay the claim predicts
after `n` consecutive failures. -/
def claimedDelay (n : Nat) : Nat :=
  min (BASE_RETRY_DELAY * 2 ^ (n - 1)) MAX_RETRY_DELAY

/-! ## Address-range expansion (`discovery.js`) -/

/-- `ip.split('.').reduce((acc, o) => (acc << 8) + parseInt(o), 0) >>> 0`
(discovery.js:202): dotted string to 32-bit integer. -/
def jsIpToLong (s : String) : Nat :=
  (jsSplit s '.').foldl (fun acc o => (acc * 256 + (jsParseInt o).getD 0) % 2 ^ 32) 0

/-- Four-octet IP as a 32-bit integer. -/
def ipToLong (a b c d : Nat) : Nat := (((a * 256 + b) * 256 + c) * 256 + d) % 2 ^ 32

/-- `0xffffffff << (32 - p) >>> 0` (discovery.js:203).  JS masks the shift
count to its low five bits, hence the `% 32`. -/
def cidrMask (p : Nat) : Nat := 2 ^ 32 - 2 ^ ((32 - p) % 32)

/-- `start = (ipLong & maskLong) >>> 0`: the CIDR block's network address. -/
def cidrStart (ip p : Nat) : Nat := Nat.land ip (cidrMask p)

/-- `end = (start | (~maskLong >>> 0)) >>> 0`: the block's broadcast
address. -/
def cidrEnd (ip p : Nat) : Nat :=
  Nat.lor (cidrStart ip p) (2 ^ 32 - 1 - cidrMask p)

/-- `for (let i = start + 1; i < end; i++)` (discovery.js:208): the integer
addresses a CIDR part expands to — network and broadcast skipped. -/
def cidrHosts (ip p : Nat) : List Nat :=
  (List.range (cidrEnd ip p - (cidrStart ip p + 1))).map
    (fun k => cidrStart ip p + 1 + k)

/-- Formatting of one expanded address (discovery.js:209-213). -/
def longToIp (i : Nat) : String :=
  toString (i / 2 ^ 24 % 256) ++ "." ++ toString (i / 2 ^ 16 % 256) ++ "." ++
    toString (i / 2 ^ 8 % 256) ++ "." ++ toString (i % 256)

/-- `getSubnetRange(ip, netmask)` (discovery.js:137-153). -/
def getSubnetRange (ip netmask : String) : List String :=
  let ipInt := jsIpToLong ip
  let maskInt := jsIpToLong netmask
  let base := Nat.land ipInt maskInt
  let broadcast := Nat.lor base (2 ^ 32 - 1 - maskInt)
  (List.range (broadcast - (base + 1))).map (fun k => longToIp (base + 1 + k))

/-- `[...new Set(l)]`: first-occurrence deduplication. -/
def jsSetDedup (l : List String) : List String :=
  l.foldl (fun acc x => if acc.contains x then acc else acc ++ [x]) []

/-- One `part` of the comma-separated range spec (discovery.js:182-231):
CIDR, last-octet dash range, or single address. -/
def parseIpRangePart (part : String) : List String :=
  if jsContains part '/' then
    let baseIp := (jsSplit part '/').getD 0 ""
    let p := (jsParseInt ((jsSplit part '/').getD 1 "")).getD 0
    (cidrHosts (jsIpToLong baseIp) p).map longToIp
  else if jsContains part '-' then
    let segs := jsSplit part '.'
    let subnet := if segs.length ≤ 1 then "" else
      String.intercalate "." segs.dropLast ++ "."
    let rparts := jsSplit (segs.getLastD "") '-'
    let s := (jsParseInt (rparts.getD 0 "")).getD 0
    let e := (jsParseInt (rparts.getD 1 "")).getD 0
    (List.range (e + 1 - s)).map (fun k => subnet ++ toString (s + k))
  else [part]

/-- `parseIpRange(ipStr)` (discovery.js:166-233).  The reserved
`0.0.0.0/0` / `0.0.0.0` token expands every local interface's subnet; the
ambient interface list (`os.networkInterfaces()`) is the `localIfaces`
parameter, as `(address, netmask)` pairs. -/
def parseIpRange (localIfaces : List (String × String)) (ipStr : String) :
    List String :=
  if jsTrim ipStr = "" then []
  else if jsTrim ipStr = "0.0.0.0/0" ∨ jsTrim ipStr = "0.0.0.0" then
    jsSetDedup (localIfaces.map (fun i => getSubnetRange i.1 i.2)).flatten
  else
    ((jsSplit ipStr ',').map jsTrim).map parseIpRangePart |>.flatten

/-! ## Concrete fixtures used by the theorems below -/

/-- A device whose every register reads `1`: every chain header is
`(1, 1)`, never the end marker — a self-referential, never-terminating
header sequence. -/
def loopDevice : DevMem := fun _ => 1

/-- A device presenting the header sequence `(103, 50)` at `B`,
`(1, 66)` at `B + 52`, and the end marker `0xFFFF` at `B + 120`. -/
def chainDevice (B : Nat) : DevMem := fun a =>
  if a = B then 103
  else if a = B + 1 then 50
  else if a = B + 52 then 1
  else if a = B + 53 then 66
  else if a = B + 120 then 0xFFFF
  else 0

/-- A one-point `int16` schema. -/
def schemaInt16 : List Point := [⟨"T", "int16", none, none⟩]

/-- A one-point `uint32` schema. -/
def schemaUint32 : List Point := [⟨"U", "uint32", none, none⟩]

/-- An `int16` point `Val` that references scale factor point `SF`. -/
def scaledSchema : List Point :=
  [⟨"Val", "int16", none, some "SF"⟩, ⟨"SF", "sunssf", none, none⟩]

/-- Registers for `scaledSchema`: raw value `1890` at offset 0, scale
factor `-2` (register word `65534`) at offset 1. -/
def regsScaled : DevMem := fun a => if a = 0 then 1890 else 65534

/-- Registers for `scaledSchema`: raw value `1890`, scale-factor register
carrying the `int16` not-implemented sentinel (`0x8000`). -/
def regsSfNull : DevMem := fun a => if a = 0 then 1890 else 32768

/-- A pool holding one live, open client (handle 7) for one key. -/
def onePool : PoolMap := [("192.168.1.50:502", ⟨some ⟨7, true⟩⟩)]

/-- Two submissions to the same `(host, port)` key, one transport step
each — two concurrent `readSinglePoint` calls against one device. -/
def twoCalls : List CAction := [("192.168.1.10:502", 1), ("192.168.1.10:502", 1)]

/-- The (unique) trace of `twoCalls` that the per-key queue admits. -/
def twoCallsTrace : List CEvent := [(0, 0), (0, 1), (0, 2), (1, 0), (1, 1), (1, 2)]

/-! ## Theorems -/

theorem end_marker_eq : MODEL_END_MARKER = 65535 := rfl

theorem chainDevice_hdr0 (B : Nat) : readHeader (chainDevice B) B = (103, 50) := by
  have e1 : chainDevice B B = 103 := by unfold chainDevice; rw [if_pos rfl]
  have e2 : chainDevice B (B + 1) = 50 := by
    unfold chainDevice; rw [if_neg (by omega), if_pos rfl]
  simp [readHeader, readU16, e1, e2]

theorem chainDevice_hdr1 (B : Nat) : readHeader (chainDevice B) (B + 52) = (1, 66) := by
  have e1 : chainDevice B (B + 52) = 1 := by
    unfold chainDevice
    rw [if_neg (by omega), if_neg (by omega), if_pos rfl]
  have e2 : chainDevice B (B + 53) = 66 := by
    unfold chainDevice
    rw [if_neg (by omega), if_neg (by omega), if_neg (by omega), if_pos rfl]
  simp [readHeader, readU16, e1, e2]

theorem chainDevice_hdr2 (B : Nat) :
    readHeader (chainDevice B) (B + 120) = (0xFFFF, 0) := by
  have e1 : chainDevice B (B + 120) = 0xFFFF := by
    unfold chainDevice
    rw [if_neg (by omega), if_neg (by omega), if_neg (by omega),
      if_neg (by omega), if_pos rfl]
  have e2 : chainDevice B (B + 121) = 0 := by
    unfold chainDevice
    rw [if_neg (by omega), if_neg (by omega), if_neg (by omega),
      if_neg (by omega), if_neg (by omega)]
  simp [readHeader, readU16, e1, e2]

/-- C4: walking the chain `(103, 50), (1, 66), 0xFFFF` from base `B`
returns `B` for target model 103, `B + 52` (advancing by `2 + length`)
for target model 1, and `-1` ("not found") for target model 999 after
observing the end marker — for any residual fuel, i.e. the loop returns
these values in 1, 2 and 3 iterations respectively. -/
theorem findModelAddress_chain_walk (B k : Nat) :
    findModelAddress (chainDevice B) 103 (some B) (k + 1) = some (B : Int) ∧
    findModelAddress (chainDevice B) 1 (some B) (k + 2) = some ((B : Int) + 52) ∧
    findModelAddress (chainDevice B) 999 (some B) (k + 3) = some (-1) := by
  have h52 : B + 2 + 50 = B + 52 := by omega
  have h120 : B + 52 + 2 + 66 = B + 120 := by omega
  refine ⟨?_, ?_, ?_⟩
  · show findModelAddressWalk (chainDevice B) 103 (k + 1) B = some (B : Int)
    rw [findModelAddressWalk, chainDevice_hdr0]
    norm_num [end_marker_eq]
  · show findModelAddressWalk (chainDevice B) 1 (k + 2) B = some ((B : Int) + 52)
    rw [findModelAddressWalk, chainDevice_hdr0]
    norm_num [end_marker_eq]
    rw [h52, findModelAddressWalk, chainDevice_hdr1]
    norm_num [end_marker_eq]
  · show findModelAddressWalk (chainDevice B) 999 (k + 3) B = some (-1)
    rw [findModelAddressWalk, chainDevice_hdr0]
    norm_num [end_marker_eq]
    rw [h52, findModelAddressWalk, chainDevice_hdr1]
    norm_num [end_marker_eq]
    rw [h120, findModelAddressWalk, chainDevice_hdr2]
    norm_num [end_marker_eq]

theorem loopDevice_walk_none :
    ∀ fuel addr, findModelAddressWalk loopDevice 999 fuel addr = none
  | 0, _ => rfl
  | fuel + 1, addr => by
    rw [findModelAddressWalk]
    have h : readHeader loopDevice addr = (1, 1) := by
      simp [readHeader, readU16, loopDevice]
    rw [h]
    norm_num [end_marker_eq]
    exact loopDevice_walk_none fuel (addr + 2 + 1)

/-- C3: the chain walk of `findModelAddress` has **no** hop bound: against
a device whose every header is `(1, 1)` (a never-terminating header
sequence) and target model 999, the `while (true)` loop has not returned
after any number of iterations, from any base address — the walk is an
infinite suspension, not a bounded failure. -/
theorem findModelAddress_walk_unbounded (fuel base : Nat) :
    findModelAddress loopDevice 999 (some base) fuel = none ∧
    findModelAddress loopDevice 999 none fuel = none := by
  constructor
  · exact loopDevice_walk_none fuel base
  · exact loopDevice_walk_none fuel _

/-- C8: the auto-read backoff never grows.  `executeRead` chains
`.catch(onFailure).then(onSettled)`, so `onSettled` — which resets
`consecutiveErrors` to 0 — also runs after every failure.  Three
consecutive failures from the initial state schedule delays
`[1000, 1000, 1000]`, not the `[1000, 2000, 4000]` the claim's formula
`min(1000 * 2 ** (n - 1), 30000)` predicts. -/
theorem executeRead_delays_never_grow :
    executeReadDelays initialConnState [true, true, true] = [1000, 1000, 1000] ∧
    claimedDelay 1 = 1000 ∧ claimedDelay 2 = 2000 ∧ claimedDelay 3 = 4000 ∧
    executeReadDelays initialConnState [true, true, true] ≠
      [claimedDelay 1, claimedDelay 2, claimedDelay 3] := by
  decide

/-- C7: a request for a point name absent from the block's schema does not
fail — `fetchPointValue` returns `null` (`if (!pointDef) return null`,
sunspec-scan.js:571), and `readSinglePoint` therefore yields `null` rather
than throwing the `SunSpecPointNotFoundError` its own documentation
promises. -/
theorem fetchPointValue_missing_point_null (pts : List Point) (name : String)
    (regs : DevMem) (addr : Nat) (rd : Bool)
    (habs : pts.find? (fun p => p.name == name) = none) :
    fetchPointValue pts name regs addr rd = SSValue.null := by
  unfold fetchPointValue
  rw [habs]

theorem fetchPointValue_missing_point_null_witness :
    fetchPointValue schemaInt16 "B" (fun _ => 0) 0 true = SSValue.null :=
  fetchPointValue_missing_point_null schemaInt16 "B" (fun _ => 0) 0 true (by decide)

/-- C10 counterexample: the register size inferred for a string-typed
point with no schema-declared size is the constant `1`
(`REG_SIZE_STRING`), not half the field's character count — for the
claim's 32-character example the claim predicts `32 / 2 = 16`, the code
computes `1`. -/
theorem string_size_not_half_chars :
    getRegisterSize (some "string") = 1 ∧
    sizeOfPoint ⟨"Mn", "string", none, none⟩ = 1 ∧
    (1 : Nat) ≠ 32 / 2 := by
  decide

/-- C10 amended: for every string-typed field without a schema-declared
register size, both size computations yield the constant
`REG_SIZE_STRING = 1`, independent of the string's character count; a
string's true register footprint is honoured only via the explicit
schema `size`. -/
theorem string_register_size_constant (name : String) (sf? : Option String) :
    sizeOfPoint ⟨name, "string", none, sf?⟩ = REG_SIZE_STRING ∧
    getRegisterSize (some "string") = REG_SIZE_STRING :=
  ⟨rfl, rfl⟩

/-- C5: the decoder maps not-implemented sentinels to `null`: whenever the
requested point resolves to a definition of an integer type and the raw
register value at its offset is that type's sentinel, `fetchPointValue`
returns `null`; concretely, an `int16` field reading `-32768` decodes to
`null`, reading `123` decodes to `123`, and a `uint32` field reading
`4294967295` decodes to `null`. -/
theorem sentinel_decodes_to_null :
    (∀ (pts : List Point) (name : String) (p : Point) (regs : DevMem)
        (addr : Nat) (rd : Bool),
      pts.find? (fun q => q.name == name) = some p →
      ((p.type = "int16" →
          readI16 regs (addr + offsetToPoint pts name) = INT16_NOT_IMPL →
          fetchPointValue pts name regs addr rd = SSValue.null) ∧
        (p.type = "uint16" ∨ p.type = "enum16" →
          readU16 regs (addr + offsetToPoint pts name) = UINT16_NOT_IMPL →
          fetchPointValue pts name regs addr rd = SSValue.null) ∧
        (p.type = "int32" →
          readI32 regs (addr + offsetToPoint pts name) = INT32_NOT_IMPL →
          fetchPointValue pts name regs addr rd = SSValue.null) ∧
        (p.type = "uint32" →
          readU32 regs (addr + offsetToPoint pts name) = UINT32_NOT_IMPL →
          fetchPointValue pts name regs addr rd = SSValue.null) ∧
        (p.type = "sunssf" →
          readI16 regs (addr + offsetToPoint pts name) = INT16_NOT_IMPL →
          fetchPointValue pts name regs addr rd = SSValue.null))) ∧
    fetchPointValue schemaInt16 "T" (fun _ => 32768) 0 false = SSValue.null ∧
    fetchPointValue schemaInt16 "T" (fun _ => 123) 0 false = SSValue.num 123 ∧
    fetchPointValue schemaUint32 "U" (fun _ => 65535) 0 false = SSValue.null := by
  refine ⟨?_, ?_, ?_, ?_⟩
  · intro pts name p regs addr rd hfind
    refine ⟨?_, ?_, ?_, ?_, ?_⟩
    · intro htype hsent
      simp [fetchPointValue, hfind, htype, hsent]
    · intro htype hsent
      rcases htype with htype | htype <;> simp [fetchPointValue, hfind, htype, hsent]
    · intro htype hsent
      simp [fetchPointValue, hfind, htype, hsent]
    · intro htype hsent
      simp [fetchPointValue, hfind, htype, hsent]
    · intro htype hsent
      simp [fetchPointValue, hfind, htype, hsent]
  · decide
  · norm_num [fetchPointValue, schemaInt16, offsetToPoint, readI16, readU16,
      INT16_NOT_IMPL]
  · decide

theorem sentinel_decodes_to_null_witness :
    fetchPointValue schemaInt16 "T" (fun _ => 32768) 0 true = SSValue.null :=
  (sentinel_decodes_to_null.1 schemaInt16 "T" ⟨"T", "int16", none, none⟩
    (fun _ => 32768) 0 true (by decide)).1 rfl (by decide)

/-- C6: a numeric field referencing a scale-factor field: with scale
factor `-2` and raw value `1890` the decoded value is `18.90`
(`raw * 10 ^ sf`); when the scale-factor register carries its own
not-implemented sentinel (`-32768`), the unscaled raw `1890` is
returned. -/
theorem scale_factor_application :
    fetchPointValue scaledSchema "Val" regsScaled 0 false = SSValue.num (189 / 10) ∧
    fetchPointValue scaledSchema "Val" regsSfNull 0 false = SSValue.num 1890 := by
  have hf : List.find? (fun p => p.name == "Val") scaledSchema =
      some ⟨"Val", "int16", none, some "SF"⟩ := by decide
  have h1 : offsetToPoint scaledSchema "Val" = 0 := by decide
  have h2 : offsetToPoint scaledSchema "SF" = 1 := by decide
  have h3 : List.any scaledSchema (fun p => p.name == "SF") = true := by decide
  constructor <;>
  · simp only [fetchPointValue, hf, h1, h2, h3]
    norm_num [regsScaled, regsSfNull, readI16, readU16, INT16_NOT_IMPL]
    try decide

theorem poolGet_poolDelete_self (m : PoolMap) (k : String) :
    poolGet (poolDelete m k) k = none := by
  induction m with
  | nil => rfl
  | cons e rest ih =>
    unfold poolDelete poolGet at *
    by_cases h : e.1 = k
    · have hb : (e.1 == k) = true := beq_iff_eq.mpr h
      simp only [List.filter_cons, hb, Bool.not_true, Bool.false_eq_true,
        if_false]
      exact ih
    · simp [List.filter_cons, h, List.find?_cons, ih]

theorem find?_poolSet_self (m : PoolMap) (k : String) (v : PoolEntry) :
    List.find? (fun e => e.1 == k) (poolSet m k v) = some (k, v) := by
  induction m with
  | nil => simp [poolSet]
  | cons e rest ih =>
    obtain ⟨k', v'⟩ := e
    by_cases he : k' = k
    · simp [poolSet, he]
    · simp [poolSet, he, ih]

theorem poolGet_poolSet_self (m : PoolMap) (k : String) (v : PoolEntry) :
    poolGet (poolSet m k v) k = some v := by
  unfold poolGet
  rw [find?_poolSet_self]
  rfl

theorem runAction_events_mem (pool : PoolMap) (k : String) (c : PoolClient)
    (x : TEvent) (evs : List TEvent) (res : Except String Unit) (hx : x ∈ evs) :
    x ∈ (requestExec.runAction pool k c evs res).events := by
  cases res with
  | ok _ =>
    simp only [requestExec.runAction]
    exact hx
  | error m =>
    by_cases hf : isFatalError m = true
    · rcases hinv : invalidate pool k with ⟨p2, e2⟩
      simp only [requestExec.runAction, hf, if_true, hinv, List.mem_append]
      exact Or.inl hx
    · simpa [requestExec.runAction, hf] using hx

/-- C2: a fatal action error (`_isFatalError` match) invalidates the pool
entry — the live handle is closed, the key is forgotten, the error
propagates — and the next submission for that key opens a fresh
connection; a non-fatal error propagates with the pool left completely
unchanged.  Stated for a pool whose entry for `k` holds a live, open
client with handle `h`. -/
theorem connection_pool_fatal_invalidation (pool : PoolMap) (k : String)
    (h : Nat) (msg : String) (env2 : ReqEnv)
    (hentry : poolGet pool k = some ⟨some ⟨h, true⟩⟩) :
    (isFatalError msg = true →
      (requestExec pool k ⟨true, 0, Except.error msg⟩).result = Except.error msg ∧
      poolGet (requestExec pool k ⟨true, 0, Except.error msg⟩).pool k = none ∧
      TEvent.close h ∈ (requestExec pool k ⟨true, 0, Except.error msg⟩).events ∧
      (env2.connectOk = true →
        TEvent.connect env2.freshHandle ∈
          (requestExec (requestExec pool k ⟨true, 0, Except.error msg⟩).pool
            k env2).events)) ∧
    (isFatalError msg = false →
      (requestExec pool k ⟨true, 0, Except.error msg⟩).result = Except.error msg ∧
      (requestExec pool k ⟨true, 0, Except.error msg⟩).pool = pool) := by
  have hstep :
      requestExec pool k ⟨true, 0, Except.error msg⟩ =
        requestExec.runAction pool k ⟨h, true⟩ [] (Except.error msg) := by
    simp [requestExec, hentry]
  have hinv : invalidate pool k = (poolDelete pool k, [TEvent.close h]) := by
    unfold invalidate
    rw [hentry]
  constructor
  · intro hfatal
    have hrun :
        requestExec.runAction pool k ⟨h, true⟩ [] (Except.error msg) =
          ⟨poolDelete pool k, [TEvent.close h], Except.error msg⟩ := by
      simp [requestExec.runAction, hfatal, hinv]
    refine ⟨?_, ?_, ?_, ?_⟩
    · rw [hstep, hrun]
    · rw [hstep, hrun]
      exact poolGet_poolDelete_self pool k
    · rw [hstep, hrun]
      simp
    · intro hconn
      rw [hstep, hrun]
      show TEvent.connect env2.freshHandle ∈
        (requestExec (poolDelete pool k) k env2).events
      have hget : poolGet (poolDelete pool k) k = none := poolGet_poolDelete_self pool k
      have hget2 :
          poolGet (poolSet (poolDelete pool k) k ⟨none⟩) k = some ⟨none⟩ :=
        poolGet_poolSet_self _ k _
      have hstep2 :
          requestExec (poolDelete pool k) k env2 =
            requestExec.runAction
              (poolSet (poolSet (poolDelete pool k) k ⟨none⟩) k
                ⟨some ⟨env2.freshHandle, true⟩⟩)
              k ⟨env2.freshHandle, true⟩ [TEvent.connect env2.freshHandle]
              env2.actionResult := by
        simp [requestExec, hget, hget2, hconn]
      rw [hstep2]
      exact runAction_events_mem _ _ _ _ _ _ (List.mem_cons_self _ _)
  · intro hnonfatal
    have hrun :
        requestExec.runAction pool k ⟨h, true⟩ [] (Except.error msg) =
          ⟨pool, [], Except.error msg⟩ := by
      simp [requestExec.runAction, hnonfatal]
    rw [hstep, hrun]
    exact ⟨rfl, rfl⟩

set_option maxRecDepth 16384 in
/-- C9: for every CIDR block, the expanded host list contains neither the
block's network address (`start`) nor its broadcast address (`end`); in
particular `"192.168.1.0/24"` expands to exactly the 254 addresses
`192.168.1.1` … `192.168.1.254`. -/
theorem cidr_excludes_network_and_broadcast :
    (∀ ip p x, x ∈ cidrHosts ip p → x ≠ cidrStart ip p ∧ x ≠ cidrEnd ip p) ∧
    parseIpRange [] "192.168.1.0/24" =
      (List.range 254).map (fun i => "192.168.1." ++ toString (1 + i)) := by
  constructor
  · intro ip p x hx
    simp only [cidrHosts, List.mem_map, List.mem_range] at hx
    obtain ⟨k, hk, rfl⟩ := hx
    omega
  · decide

theorem valid_trace_mem (A : List CAction) (tr : List CEvent)
    (hv : ValidTrace A tr) (i s : Nat) (hi : i < A.length)
    (hs : s < numEvents A i) : (i, s) ∈ tr :=
  hv.2.2.1 i hi s hs

theorem valid_trace_dep_lt (A : List CAction) (tr : List CEvent)
    (hv : ValidTrace A tr) (e e' : CEvent) (he : e ∈ tr) (he' : e' ∈ tr)
    (hd : dep A e e') : tr.indexOf e < tr.indexOf e' :=
  hv.2.2.2 e he e' he' hd

theorem valid_trace_step_mono (A : List CAction) (tr : List CEvent)
    (hv : ValidTrace A tr) (i s s' : Nat) (hi : i < A.length)
    (hss' : s < s') (hs' : s' < numEvents A i) :
    tr.indexOf (i, s) < tr.indexOf (i, s') := by
  refine valid_trace_dep_lt A tr hv (i, s) (i, s') ?_ ?_ (Or.inl ⟨rfl, hi, hss', hs'⟩)
  · exact valid_trace_mem A tr hv i s hi (lt_trans hss' hs')
  · exact valid_trace_mem A tr hv i s' hi hs'

theorem first_event_after_same_key (A : List CAction) (tr : List CEvent)
    (hv : ValidTrace A tr) :
    ∀ j, j < A.length → ∀ i, i < j → keyOf A i = keyOf A j →
      ∀ si, si < numEvents A i → tr.indexOf (i, si) < tr.indexOf (j, 0) := by
  intro j
  induction j using Nat.strong_induction_on with
  | _ j ih =>
    intro hj i hij hkey si hsi
    have hi : i < A.length := lt_trans hij hj
    have hnum : ∀ m, 0 < numEvents A m ∧ numEvents A m - 1 < numEvents A m ∧
        0 < numEvents A m - 1 := by
      intro m
      unfold numEvents
      omega
    -- from the last event of a same-key immediate predecessor `m` of `j`
    -- to `(j, 0)`, then close the gap `si → last` inside action `m`/`i`
    by_cases hex : ∃ m, i < m ∧ m < j ∧ keyOf A m = keyOf A j
    · obtain ⟨m0, hm0i, hm0j, hm0k⟩ := hex
      have hm0le : m0 ≤ j - 1 := by omega
      have hPm := Nat.findGreatest_spec (P := fun m => i < m ∧ keyOf A m = keyOf A j)
        hm0le ⟨hm0i, hm0k⟩
      set m := Nat.findGreatest (fun m => i < m ∧ keyOf A m = keyOf A j) (j - 1)
        with hmdef
      have hmle : m ≤ j - 1 := Nat.findGreatest_le _
      have hmj : m < j := by omega
      have him : i < m := hPm.1
      have hkm : keyOf A m = keyOf A j := hPm.2
      have hnb : ∀ m', m' < j → m < m' → keyOf A m' ≠ keyOf A j := by
        intro m' hm'j hmm' hk'
        exact Nat.findGreatest_is_greatest (hmdef ▸ hmm') (by omega)
          ⟨lt_trans him hmm', hk'⟩
      have hd : dep A (m, numEvents A m - 1) (j, 0) :=
        Or.inr ⟨hmj, hj, hkm, hnb, rfl, rfl⟩
      have hmlen : m < A.length := lt_trans hmj hj
      have h1 : tr.indexOf (i, si) < tr.indexOf (m, 0) :=
        ih m hmj hmlen i him (hkey.trans hkm.symm) si hsi
      have h2 : tr.indexOf (m, 0) < tr.indexOf (m, numEvents A m - 1) :=
        valid_trace_step_mono A tr hv m 0 _ hmlen (hnum m).2.2 (hnum m).2.1
      have h3 : tr.indexOf (m, numEvents A m - 1) < tr.indexOf (j, 0) :=
        valid_trace_dep_lt A tr hv _ _
          (valid_trace_mem A tr hv m _ hmlen (hnum m).2.1)
          (valid_trace_mem A tr hv j 0 hj (hnum j).1) hd
      omega
    · push_neg at hex
      have hnb : ∀ m', m' < j → i < m' → keyOf A m' ≠ keyOf A j := by
        intro m' h1 h2
        exact hex m' h2 h1
      have hd : dep A (i, numEvents A i - 1) (j, 0) :=
        Or.inr ⟨hij, hj, hkey, hnb, rfl, rfl⟩
      have h3 : tr.indexOf (i, numEvents A i - 1) < tr.indexOf (j, 0) :=
        valid_trace_dep_lt A tr hv _ _
          (valid_trace_mem A tr hv i _ hi (hnum i).2.1)
          (valid_trace_mem A tr hv j 0 hj (hnum j).1) hd
      rcases Nat.lt_or_ge si (numEvents A i - 1) with hlt | hge
      · have h1 : tr.indexOf (i, si) < tr.indexOf (i, numEvents A i - 1) :=
          valid_trace_step_mono A tr hv i si _ hi hlt (hnum i).2.1
        omega
      · have : si = numEvents A i - 1 := by omega
        rw [this]
        exact h3

/-- C1: the per-key queue of `ConnectionManager.request` serializes all
transport interactions sharing one `(host, port)` key: in every trace the
promise scheduler can produce, every event of an earlier submission
precedes every event of any later submission with the same key — two
concurrent `readSinglePoint` calls (each one submitted action) against the
same device never interleave at the transport, the later call's session
interactions starting only after the earlier call's have fully completed;
at most one action per key is ever outstanding. -/
theorem request_fifo_per_key (A : List CAction) (tr : List CEvent)
    (hv : ValidTrace A tr) (i j : Nat) (hij : i < j) (hj : j < A.length)
    (hkey : keyOf A i = keyOf A j) (si sj : Nat)
    (hsi : si < numEvents A i) (hsj : sj < numEvents A j) :
    tr.indexOf (i, si) < tr.indexOf (j, sj) := by
  have h0 := first_event_after_same_key A tr hv j hj i hij hkey si hsi
  rcases Nat.eq_zero_or_pos sj with rfl | hpos
  · exact h0
  · exact lt_trans h0 (valid_trace_step_mono A tr hv j 0 sj hj hpos hsj)

theorem request_fifo_per_key_witness :
    ValidTrace twoCalls twoCallsTrace ∧
    twoCallsTrace.indexOf (0, 2) < twoCallsTrace.indexOf (1, 0) :=
  ⟨by decide,
   request_fifo_per_key twoCalls twoCallsTrace (by decide) 0 1 (by decide)
     (by decide) (by decide) 2 0 (by decide) (by decide)⟩

theorem connection_pool_fatal_invalidation_witness :
    isFatalError "Port Not Open" = true ∧
    (requestExec onePool "192.168.1.50:502"
      ⟨true, 0, Except.error "Port Not Open"⟩).result =
        Except.error "Port Not Open" ∧
    poolGet (requestExec onePool "192.168.1.50:502"
      ⟨true, 0, Except.error "Port Not Open"⟩).pool "192.168.1.50:502" = none ∧
    TEvent.close 7 ∈ (requestExec onePool "192.168.1.50:502"
      ⟨true, 0, Except.error "Port Not Open"⟩).events ∧
    TEvent.connect 8 ∈
      (requestExec (requestExec onePool "192.168.1.50:502"
          ⟨true, 0, Except.error "Port Not Open"⟩).pool "192.168.1.50:502"
        ⟨true, 8, Except.ok ()⟩).events := by
  have H := connection_pool_fatal_invalidation onePool "192.168.1.50:502" 7
    "Port Not Open" ⟨true, 8, Except.ok ()⟩ (by decide)
  have hf : isFatalError "Port Not Open" = true := by decide
  exact ⟨hf, (H.1 hf).1, (H.1 hf).2.1, (H.1 hf).2.2.1, (H.1 hf).2.2.2 rfl⟩

theorem cidr_excludes_network_and_broadcast_witness :
    (ipToLong 192 168 1 0 + 5) ∈ cidrHosts (ipToLong 192 168 1 0) 24 ∧
    ((ipToLong 192 168 1 0 + 5) ≠ cidrStart (ipToLong 192 168 1 0) 24 ∧
      (ipToLong 192 168 1 0 + 5) ≠ cidrEnd (ipToLong 192 168 1 0) 24) :=
  ⟨by decide, cidr_excludes_network_and_broadcast.1 _ 24 _ (by decide)⟩

end SunSpecScan
